import Mathlib

/-!
Verification of the RGP-BACKEND-ENQUIRY authentication / authorization and
enquiry-query subsystems.

The Go sources are shallowly embedded as Lean functions:
  - `models/user.go`: roles, user record, password hashing (bcrypt, modelled at
    the contract level), username derivation from email;
  - the JWT service (`services`): token issuance with role-dependent expiry;
  - `middleware/middleware.go`: authentication and role-check middleware;
  - `controllers/user_controller.go`: the sign-in error dispatch;
  - `controllers/enquiry_controller.go`: page/limit query parsing;
  - `services/enquiry_service.go`: filter construction and pagination math.

Machine integers (Go `int64`) are modelled as `Int`/`Nat` (the embedded
arithmetic never approaches the 64-bit boundary on the stated domains);
wall-clock time is a parameter (`now`, in seconds since the Unix epoch);
fallible Go functions returning `(T, error)` become `Except String T`.
-/

namespace RGPEnquiry

/-! ## Data model (src/models/user.go) -/

/-- Go `models.UserRole` is a string-backed type. -/
abbrev UserRole := String

/-- Go `models.RoleAdmin`. -/
def RoleAdmin : UserRole := "admin"

/-- Go `models.RoleSuperAdmin`. -/
def RoleSuperAdmin : UserRole := "super-admin"

/-- Embedding of `models.User` (the fields the verified operations read).
`password` holds the plaintext before `HashPassword` and the bcrypt hash
string afterwards, exactly as the Go field does. -/
structure User where
  id : String
  email : String
  username : String
  password : String
  role : UserRole
  isActive : Bool
deriving Repr, DecidableEq

/-! ## Token Service (JWT service in src/unnamed/part_002, lines 393-460)

A signed token is abstracted to its claims payload: signing is an external
MAC primitive and every claim under verification is about the claims'
contents, not the signature bytes. Timestamps are seconds since epoch. -/

/-- Embedding of the service's `Claims` structure (JWT registered claims
plus the user fields). -/
structure JwtClaims where
  userID : String
  email : String
  username : String
  role : UserRole
  expiresAt : Int
  issuedAt : Int
  notBefore : Int
  issuer : String
  subject : String
deriving Repr, DecidableEq

/-- Embedding of `JWTService.GenerateToken`. The Go code samples
`time.Now()` for the expiry and again for issued-at/not-before; the model
uses one clock sample `now`, which is the issuance time. The `switch` on
`user.Role` with cases `RoleAdmin` (48h), `RoleSuperAdmin` (30·24h) and a
failing `default` becomes an if-chain. -/
def GenerateToken (now : Int) (user : User) : Except String JwtClaims :=
  if user.role = RoleAdmin then
    .ok { userID := user.id, email := user.email, username := user.username,
          role := user.role, expiresAt := now + 48 * 3600, issuedAt := now,
          notBefore := now, issuer := "rgp-backend-enquiry", subject := user.id }
  else if user.role = RoleSuperAdmin then
    .ok { userID := user.id, email := user.email, username := user.username,
          role := user.role, expiresAt := now + 30 * 24 * 3600, issuedAt := now,
          notBefore := now, issuer := "rgp-backend-enquiry", subject := user.id }
  else
    .error "invalid user role"

/-- Embedding of `JWTService.GetTokenExpiration`: duration in seconds,
default fallback 24h for unrecognized roles. -/
def GetTokenExpiration (role : UserRole) : Int :=
  if role = RoleAdmin then 48 * 3600
  else if role = RoleSuperAdmin then 30 * 24 * 3600
  else 24 * 3600

/-- Sample admin user for concrete evaluations. -/
def adminUser : User :=
  { id := "507f191e810c19729de860ea", email := "admin@rgp.com", username := "admin",
    password := "secret-pass-1", role := RoleAdmin, isActive := true }

/-- Sample super-admin user for concrete evaluations. -/
def superAdminUser : User :=
  { id := "507f191e810c19729de860eb", email := "root@rgp.com", username := "root",
    password := "secret-pass-2", role := RoleSuperAdmin, isActive := true }

/-- Sample user carrying a role string outside the two recognized roles. -/
def editorUser : User :=
  { id := "507f191e810c19729de860ec", email := "editor@rgp.com", username := "editor",
    password := "secret-pass-3", role := "editor", isActive := true }

/-! ## Authorization gate (src/middleware/middleware.go = src/unnamed/part_007)

A middleware either writes an error response (status code, message, detail —
the arguments of `models.CreateErrorResponse`) and stops, or forwards the
request to the next handler. `AuthMiddleware` reads the `Authorization`
header (Go's `Header.Get` yields `""` when the header is absent) and the
role middlewares read the `user_role` context value (`none` models a
missing or differently-typed value, the `ok` cast flag in Go). -/

/-- Outcome of the authentication middleware: an error response, or the
request forwarded with the decoded claim values attached to the context
under the keys user_id, user_email, user_role, user_username. -/
inductive AuthOutcome where
  | rejected (status : Nat) (message : String) (detail : String)
  | forwarded (ctxUserID : String) (ctxEmail : String) (ctxRole : UserRole)
      (ctxUsername : String)
deriving Repr, DecidableEq

/-- Outcome of a role-check middleware. -/
inductive RoleOutcome where
  | rejected (status : Nat) (message : String) (detail : String)
  | forwarded
deriving Repr, DecidableEq

/-- Embedding of `middleware.AuthMiddleware`. `validateToken` is the
injected `JWTService.ValidateToken`; the scheme check `strings.HasPrefix
(authHeader, "Bearer ")` and `strings.TrimPrefix` act on the first seven
characters (all ASCII, so byte and rune indexing agree). -/
def AuthMiddleware (validateToken : String → Except String JwtClaims)
    (authHeader : String) : AuthOutcome :=
  if authHeader = "" then
    .rejected 401 "Authorization header missing" "Bearer token is required"
  else if authHeader.toList.take 7 ≠ "Bearer ".toList then
    .rejected 401 "Invalid authorization format"
      "Authorization header must be 'Bearer <token>'"
  else
    match validateToken (String.mk (authHeader.toList.drop 7)) with
    | .error _ =>
        .rejected 401 "Invalid token" "Token is expired or invalid"
    | .ok claims =>
        .forwarded claims.userID claims.email claims.role claims.username

/-- Embedding of `middleware.RoleMiddleware`. -/
def RoleMiddleware (requiredRole : UserRole) (ctxRole : Option UserRole) :
    RoleOutcome :=
  match ctxRole with
  | none =>
      .rejected 500 "User role not found in context"
        "Authentication middleware must be applied before role middleware"
  | some userRole =>
      if userRole ≠ requiredRole ∧ userRole ≠ RoleSuperAdmin then
        .rejected 403 "Insufficient permissions"
          "Access denied: insufficient role permissions"
      else
        .forwarded

/-- Embedding of `middleware.AdminOrSuperAdminMiddleware`. -/
def AdminOrSuperAdminMiddleware (ctxRole : Option UserRole) : RoleOutcome :=
  match ctxRole with
  | none =>
      .rejected 500 "User role not found in context"
        "Authentication middleware must be applied before role middleware"
  | some userRole =>
      if userRole ≠ RoleAdmin ∧ userRole ≠ RoleSuperAdmin then
        .rejected 403 "Insufficient permissions"
          "Access denied: admin or super-admin role required"
      else
        .forwarded

/-- Sample decoded claims for concrete evaluations. -/
def sampleClaims : JwtClaims :=
  { userID := "507f191e810c19729de860ea", email := "admin@rgp.com",
    username := "admin", role := RoleAdmin, expiresAt := 1000 + 48 * 3600,
    issuedAt := 1000, notBefore := 1000, issuer := "rgp-backend-enquiry",
    subject := "507f191e810c19729de860ea" }

/-- Sample token validator for concrete evaluations: accepts exactly the
token string "tok-1" and yields `sampleClaims`. -/
def sampleValidator (tok : String) : Except String JwtClaims :=
  if tok = "tok-1" then .ok sampleClaims else .error "token is malformed"

/-! ## Username derivation (src/models/user.go, GenerateUsernameFromEmail)

Go iterates the local part rune by rune, so the embedding works on
`List Char`. Rune comparisons are code-point comparisons, written here on
`Char.toNat` (97..122 = a..z, 65..90 = A..Z, 48..57 = 0..9, 95 = underscore).
The cleaned string is pure ASCII, on which Go's `len`, slicing and
`strings.ToLower` coincide with list length, `take` and the ASCII shift. -/

/-- Character filter of `GenerateUsernameFromEmail`: ASCII letter, digit or
underscore. -/
def isUsernameChar (c : Char) : Bool :=
  (97 ≤ c.toNat && c.toNat ≤ 122) || (65 ≤ c.toNat && c.toNat ≤ 90) ||
    (48 ≤ c.toNat && c.toNat ≤ 57) || (c.toNat = 95)

/-- Model of `strings.ToLower` on the characters it is applied to here
(already filtered to ASCII): shift an upper-case letter down by 32. -/
def goToLowerChar (c : Char) : Char :=
  if h : 65 ≤ c.toNat ∧ c.toNat ≤ 90 then
    Char.ofNatAux (c.toNat + 32) (Or.inl (by omega))
  else c

/-- Model of Go `strings.Split` with a single-character separator, on rune
lists: splits at every occurrence of `sep` and always returns at least one
(possibly empty) part. -/
def goSplitChar (sep : Char) : List Char → List (List Char)
  | [] => [[]]
  | c :: rest =>
    if c = sep then [] :: goSplitChar sep rest
    else
      match goSplitChar sep rest with
      | [] => [[c]]
      | part :: parts => (c :: part) :: parts

/-- Embedding of `User.GenerateUsernameFromEmail`: empty email yields `""`;
otherwise take `parts[0]` of the split at `'@'`, keep letters, digits and
underscores, lower-case, append `"user"` when shorter than 3, truncate to
30 when longer than 30. The `[] => "user"` arm mirrors the Go fallback
`return "user"` reached only when `Split` yields no parts (it never does). -/
def User.GenerateUsernameFromEmail (u : User) : String :=
  if u.email = "" then ""
  else
    match goSplitChar '@' u.email.toList with
    | [] => "user"
    | username :: _ =>
      let clean := username.filter isUsernameChar
      let lowered := clean.map goToLowerChar
      let padded := if lowered.length < 3 then lowered ++ "user".toList else lowered
      let truncated := if padded.length > 30 then padded.take 30 else padded
      String.mk truncated

/-- Username derivation as worded in the specification: the substring
before the first at-sign, stripped of characters that are not ASCII
letters, digits or underscores, lower-cased, padded with the literal
suffix "user" when shorter than 3 characters and truncated to 30 when
longer. Stated separately from the embedding so the two can be compared. -/
def specUsernameOfEmail (email : String) : String :=
  let localPart := email.toList.takeWhile (fun c => c != '@')
  let cleaned := (localPart.filter isUsernameChar).map goToLowerChar
  let padded := if cleaned.length < 3 then cleaned ++ "user".toList else cleaned
  String.mk (if padded.length > 30 then padded.take 30 else padded)

/-- Character class of derived usernames: lower-case ASCII letter, digit or
underscore. -/
def isLowerUsernameChar (c : Char) : Bool :=
  (97 ≤ c.toNat && c.toNat ≤ 122) || (48 ≤ c.toNat && c.toNat ≤ 57) ||
    (c.toNat = 95)

/-! ## Password hashing (src/models/user.go, HashPassword / CheckPassword)

The bcrypt primitive (golang.org/x/crypto/bcrypt) is external; it is
modelled at its contract level: `GenerateFromPassword` at the valid
`DefaultCost` fails exactly when the password exceeds 72 bytes, and on
success returns a hash string embedding cost, salt and the key derived
from (at most 72 bytes of) the password; `CompareHashAndPassword` reports
nil exactly when the candidate password derives the embedded key, and a
mismatch is a non-nil error value, never a raised failure. The random salt
is fixed in the model; no verified property observes it. -/

/-- Key bytes bcrypt derives a hash from: the first 72 bytes of the
password (runes here; the distinction is invisible to ASCII passwords). -/
def bcryptKey (password : String) : List Char :=
  password.toList.take 72

/-- Contract model of `bcrypt.GenerateFromPassword` at `DefaultCost`. -/
def bcryptGenerateFromPassword (password : String) : Except String String :=
  if 72 < password.utf8ByteSize then
    .error "bcrypt: password length exceeds 72 bytes"
  else
    .ok ("$2a$10$" ++ String.mk (bcryptKey password))

/-- Contract model of `bcrypt.CompareHashAndPassword`, as a Bool exactly
like the Go caller consumes it (`err == nil`). -/
def bcryptCompareHashAndPassword (hash password : String) : Bool :=
  hash = "$2a$10$" ++ String.mk (bcryptKey password)

/-- Embedding of `User.HashPassword`: bcrypt-hash the password field and
store the hash back into it. No emptiness check is performed. -/
def User.HashPassword (u : User) : Except String User :=
  match bcryptGenerateFromPassword u.password with
  | .error e => .error e
  | .ok hashed => .ok { u with password := hashed }

/-- Embedding of `User.CheckPassword`: true exactly when the bcrypt
comparison reports no error. -/
def User.CheckPassword (u : User) (password : String) : Bool :=
  bcryptCompareHashAndPassword u.password password

/-- The sample admin user after `HashPassword`. -/
def hashedAdminUser : User :=
  { adminUser with password := "$2a$10$secret-pass-1" }

/-! ## Sign-in path (AuthenticateUser / SignInUser in src/unnamed/part_002;
SignIn in src/controllers/user_controller.go) -/

/-- Embedding of `models.AuthError`. -/
structure AuthError where
  type : String
  message : String
  details : String
deriving Repr, DecidableEq

/-- Go `models.ErrUserNotFound`. -/
def ErrUserNotFound : AuthError :=
  { type := "user_not_found", message := "User not found",
    details := "No user exists with this email address" }

/-- Go `models.ErrInvalidPassword`. -/
def ErrInvalidPassword : AuthError :=
  { type := "invalid_password", message := "Invalid password",
    details := "The password you entered is incorrect" }

/-- Go `models.ErrAccountDeactivated`. -/
def ErrAccountDeactivated : AuthError :=
  { type := "account_deactivated", message := "Account deactivated",
    details := "Your account has been deactivated. Please contact support" }

/-- Error of the sign-in service: an `AuthError` from authentication, or a
plain error from token generation (the `ok` type-assertion in the
controller distinguishes the two). -/
inductive SignInError where
  | auth (e : AuthError)
  | other (msg : String)
deriving Repr, DecidableEq

/-- Embedding of `UserService.AuthenticateUser`. `lookup` is the credential
store's query by email (`GetUserByEmail`; `none` models `mongo.ErrNoDocuments`).
The best-effort last-login update is a store side effect that never changes
the result. -/
def AuthenticateUser (lookup : String → Option User)
    (email password : String) : Except AuthError User :=
  match lookup email with
  | none => .error ErrUserNotFound
  | some user =>
    if !user.isActive then .error ErrAccountDeactivated
    else if !(user.CheckPassword password) then .error ErrInvalidPassword
    else .ok user

/-- Embedding of `models.SignInResponse` (the user is kept whole; Go sends
`user.ToResponse()`, a field projection). -/
structure SignInResponse where
  user : User
  message : String
  loginTime : Int
  token : JwtClaims
  expiresAt : Int
  role : UserRole
deriving Repr, DecidableEq

/-- Embedding of `UserService.SignInUser`: authenticate, issue a token,
build the response. -/
def SignInUser (lookup : String → Option User) (now : Int)
    (email password : String) : Except SignInError SignInResponse :=
  match AuthenticateUser lookup email password with
  | .error e => .error (.auth e)
  | .ok user =>
    match GenerateToken now user with
    | .error e => .error (.other e)
    | .ok token =>
      .ok { user := user, message := "Sign-in successful", loginTime := now,
            token := token, expiresAt := now + GetTokenExpiration user.role,
            role := user.role }

/-- Embedding of `models.ErrorResponse` as built by `CreateErrorResponse`. -/
structure ErrorResponse where
  statusCode : Nat
  status : String
  message : String
  error : String
  timestamp : String
deriving Repr, DecidableEq

/-- Embedding of `models.CreateErrorResponse`; the RFC3339 clock reading is
the parameter `nowStr`. -/
def CreateErrorResponse (nowStr : String) (statusCode : Nat)
    (message err : String) : ErrorResponse :=
  { statusCode := statusCode, status := "error", message := message,
    error := err, timestamp := nowStr }

/-- HTTP outcome of the sign-in controller. -/
inductive SignInHttpOutcome where
  | failure (status : Nat) (body : ErrorResponse)
  | success (status : Nat) (message : String) (resp : SignInResponse)
deriving Repr, DecidableEq

/-- Embedding of `UserController.SignIn` from the parsed request onward
(method, content-type and JSON-decode guards are HTTP plumbing before this
point): field presence check, email shape check, service call, then the
error dispatch that maps each `AuthError` type to its response. -/
def SignInController (lookup : String → Option User) (now : Int)
    (nowStr : String) (email password : String) : SignInHttpOutcome :=
  if email = "" ∨ password = "" then
    .failure 400 (CreateErrorResponse nowStr 400 "Missing required fields"
      "email and password are required")
  else if ¬ (email.toList.contains '@' ∧ email.toList.contains '.') then
    .failure 400 (CreateErrorResponse nowStr 400 "Invalid email format"
      "Email must contain @ and domain")
  else
    match SignInUser lookup now email password with
    | .ok resp => .success 200 "Sign-in successful" resp
    | .error (.auth e) =>
      if e.type = "user_not_found" then
        .failure 401 (CreateErrorResponse nowStr 401 "Email not found" e.details)
      else if e.type = "invalid_password" then
        .failure 401 (CreateErrorResponse nowStr 401 "Wrong password" e.details)
      else if e.type = "account_deactivated" then
        .failure 403 (CreateErrorResponse nowStr 403 "Account deactivated" e.details)
      else
        .failure 500 (CreateErrorResponse nowStr 500 "Sign-in failed"
          "An unexpected error occurred. Please try again later.")
    | .error (.other _) =>
      .failure 500 (CreateErrorResponse nowStr 500 "Sign-in failed"
        "An unexpected error occurred. Please try again later.")

/-- Sample credential store holding exactly the hashed admin user under the
email "admin@rgp.com". -/
def sampleLookup (email : String) : Option User :=
  if email = "admin@rgp.com" then some hashedAdminUser else none

/-! ## Enquiry list query parsing (src/controllers/enquiry_controller.go,
GetAllEnquiries, lines 140-166) -/

/-- Model of Go `strconv.ParseInt(s, 10, 64)`: optional sign, at least one
decimal digit, nothing else, value within the signed 64-bit range; any
other input (including overflow) yields an error, modelled as `none`. -/
def parseInt64 (s : String) : Option Int :=
  let signAndDigits : Int × List Char :=
    match s.toList with
    | '+' :: rest => (1, rest)
    | '-' :: rest => (-1, rest)
    | cs => (1, cs)
  let sign := signAndDigits.1
  let ds := signAndDigits.2
  if ds = [] then none
  else if ds.all (fun c => 48 ≤ c.toNat && c.toNat ≤ 57) then
    let v : Int := sign * (ds.foldl (fun a c => a * 10 + (c.toNat - 48)) 0 : Nat)
    if -(2 ^ 63) ≤ v ∧ v ≤ 2 ^ 63 - 1 then some v else none
  else none

/-- Embedding of the page-parameter handling of the controller's
`GetAllEnquiries`: start from the default 1, overwrite only when the
string is non-empty, parses, and is positive. Go's `Query().Get` yields
`""` for an absent parameter. -/
def parsePageParam (pageStr : String) : Int :=
  if pageStr ≠ "" then
    match parseInt64 pageStr with
    | some v => if v > 0 then v else 1
    | none => 1
  else 1

/-- Embedding of the limit-parameter handling: start from the default 10,
overwrite only when the string is non-empty, parses, and is positive,
capping the parsed value at 100. -/
def parseLimitParam (limitStr : String) : Int :=
  if limitStr ≠ "" then
    match parseInt64 limitStr with
    | some v => if v > 0 then (if v > 100 then 100 else v) else 10
    | none => 10
  else 10

/-! ## Enquiry service: filter construction and pagination
(src/services/enquiry_service.go, GetAllEnquiries, lines 64-161)

The Mongo collection is external: the document count is the parameter
`totalCount` (the result of `CountDocuments`), and the filter is modelled
as the data the code puts into the `bson.M` map. Arithmetic is on `Nat`:
the controller guarantees `page ≥ 1` and `limit ≥ 1`, and a count is
non-negative, so Go's truncating `int64` division is `Nat` division. -/

/-- Leap-year rule of the Gregorian calendar as Go's `time` package
implements it. -/
def isLeapYear (y : Nat) : Bool :=
  (y % 4 = 0 && y % 100 ≠ 0) || y % 400 = 0

/-- Days in a month, as Go's `time` package validates day-of-month. -/
def daysInMonth (y m : Nat) : Nat :=
  if m = 2 then (if isLeapYear y then 29 else 28)
  else if m = 4 ∨ m = 6 ∨ m = 9 ∨ m = 11 then 30
  else 31

/-- Decimal digit test on a character code point. -/
def isDigitChar (c : Char) : Bool :=
  48 ≤ c.toNat && c.toNat ≤ 57

/-- Numeric value of a decimal digit character. -/
def digitVal (c : Char) : Nat :=
  c.toNat - 48

/-- Model of Go `time.Parse("2006-01-02", s)` reduced to its observable
outcome: succeeds exactly on ten-character strings of shape DDDD-DD-DD
whose month lies in 1..12 and whose day lies in 1..daysInMonth (Go
enforces both ranges and rejects any trailing text), returning the
calendar components. -/
def parseGoDate (s : String) : Option (Nat × Nat × Nat) :=
  match s.toList with
  | [y1, y2, y3, y4, '-', m1, m2, '-', d1, d2] =>
    if isDigitChar y1 && isDigitChar y2 && isDigitChar y3 && isDigitChar y4 &&
        isDigitChar m1 && isDigitChar m2 && isDigitChar d1 && isDigitChar d2 then
      let y := ((digitVal y1 * 10 + digitVal y2) * 10 + digitVal y3) * 10 + digitVal y4
      let m := digitVal m1 * 10 + digitVal m2
      let d := digitVal d1 * 10 + digitVal d2
      if 1 ≤ m ∧ m ≤ 12 ∧ 1 ≤ d ∧ d ≤ daysInMonth y m then some (y, m, d)
      else none
    else none
  | _ => none

/-- UTC instant as produced by Go
`time.Date(y, m, d, hh, mm, ss, ns, time.UTC)` for in-range arguments:
the calendar day plus the nanosecond within the day. -/
structure GoTime where
  year : Nat
  month : Nat
  day : Nat
  nanoOfDay : Nat
deriving Repr, DecidableEq

/-- Chronological comparison of `GoTime` instants (valid calendar dates):
lexicographic on year, month, day, nanosecond. -/
def GoTime.le (a b : GoTime) : Bool :=
  (a.year < b.year) ||
  (a.year = b.year && a.month < b.month) ||
  (a.year = b.year && a.month = b.month && a.day < b.day) ||
  (a.year = b.year && a.month = b.month && a.day = b.day &&
    a.nanoOfDay ≤ b.nanoOfDay)

/-- The service's `startOfDay`: `time.Date(y, m, d, 0, 0, 0, 0, time.UTC)`. -/
def startOfDay (y m d : Nat) : GoTime :=
  { year := y, month := m, day := d, nanoOfDay := 0 }

/-- The service's `endOfDay`:
`time.Date(y, m, d, 23, 59, 59, 999999999, time.UTC)`. -/
def endOfDay (y m d : Nat) : GoTime :=
  { year := y, month := m, day := d, nanoOfDay := 86399999999999 }

/-- The Mongo filter the service builds: optional exact match on
`enquiry_type`, optional inclusive `created_at` range (`$gte`/`$lte`). -/
structure EnquiryFilter where
  enquiryType : Option String
  createdAtRange : Option (GoTime × GoTime)
deriving Repr, DecidableEq

/-- Embedding of the filter construction in the service's
`GetAllEnquiries`: a non-empty type is matched exactly; a non-empty date
string contributes a day range only when it parses, and is otherwise
silently dropped (the Go code only logs the parse failure). -/
def buildEnquiryFilter (enquiryType date : String) : EnquiryFilter :=
  { enquiryType := if enquiryType ≠ "" then some enquiryType else none,
    createdAtRange :=
      if date ≠ "" then
        match parseGoDate date with
        | none => none
        | some (y, m, d) => some (startOfDay y m d, endOfDay y m d)
      else none }

/-- Predicate the `created_at` part of the filter imposes on a document's
creation instant. -/
def matchesCreatedAt (f : EnquiryFilter) (t : GoTime) : Bool :=
  match f.createdAtRange with
  | none => true
  | some (lo, hi) => GoTime.le lo t && GoTime.le t hi

/-- Embedding of `models.PaginationInfo` as the service fills it. -/
structure PaginationInfo where
  currentPage : Nat
  totalPages : Nat
  totalCount : Nat
  limit : Nat
  hasNext : Bool
  hasPrevious : Bool
  nextPage : Nat
  previousPage : Nat
deriving Repr, DecidableEq

/-- Embedding of the pagination math of the service's `GetAllEnquiries`:
`skip := (page-1)*limit` (the cursor offset, first component) and the
`PaginationInfo` of the response. -/
def enquiryPagination (page limit totalCount : Nat) : Nat × PaginationInfo :=
  let skip := (page - 1) * limit
  let totalPages := (totalCount + limit - 1) / limit
  (skip,
    { currentPage := page, totalPages := totalPages, totalCount := totalCount,
      limit := limit, hasNext := page < totalPages, hasPrevious := page > 1,
      nextPage := page + 1, previousPage := page - 1 })

/-- The query plan of one `GetAllEnquiries` service call: the filter handed
to `Find`/`CountDocuments`, the cursor skip, and the pagination metadata
of the response (always produced; no filter-related error path exists). -/
structure EnquiryListPlan where
  filter : EnquiryFilter
  skip : Nat
  pagination : PaginationInfo
deriving Repr, DecidableEq

/-- Embedding of the service's `GetAllEnquiries` as the plan it executes:
filter construction followed by pagination math on the store's count. -/
def GetAllEnquiries (page limit totalCount : Nat) (enquiryType date : String) :
    EnquiryListPlan :=
  let filter := buildEnquiryFilter enquiryType date
  let sp := enquiryPagination page limit totalCount
  { filter := filter, skip := sp.1, pagination := sp.2 }

/-- C1: token issuance gives an admin token an expiry of issuance time plus
48 hours, a super-admin token an expiry of issuance time plus 720 hours
(30 days), and fails with the invalid-role error for any other role value,
producing no token. -/
theorem generateToken_expiry_by_role (now : Int) (user : User) :
    (user.role = RoleAdmin →
      ∃ c, GenerateToken now user = .ok c ∧ c.expiresAt = now + 48 * 3600) ∧
    (user.role = RoleSuperAdmin →
      ∃ c, GenerateToken now user = .ok c ∧ c.expiresAt = now + 720 * 3600) ∧
    (user.role ≠ RoleAdmin → user.role ≠ RoleSuperAdmin →
      GenerateToken now user = .error "invalid user role") := by
  refine ⟨?_, ?_, ?_⟩
  · intro h
    simp only [GenerateToken, h, if_pos rfl]
    exact ⟨_, rfl, rfl⟩
  · intro h
    have hne : user.role ≠ RoleAdmin := by
      rw [h]; decide
    simp only [GenerateToken, if_neg hne, h, if_pos rfl]
    refine ⟨_, rfl, ?_⟩
    norm_num
  · intro h1 h2
    simp [GenerateToken, h1, h2]

/-- Concrete instantiation of `generateToken_expiry_by_role` at issuance
time 1000 for each of the three role cases. -/
theorem generateToken_expiry_by_role_witness :
    (∃ c, GenerateToken 1000 adminUser = .ok c ∧ c.expiresAt = 1000 + 48 * 3600) ∧
    (∃ c, GenerateToken 1000 superAdminUser = .ok c ∧ c.expiresAt = 1000 + 720 * 3600) ∧
    GenerateToken 1000 editorUser = .error "invalid user role" :=
  ⟨(generateToken_expiry_by_role 1000 adminUser).1 rfl,
   (generateToken_expiry_by_role 1000 superAdminUser).2.1 rfl,
   (generateToken_expiry_by_role 1000 editorUser).2.2 (by decide) (by decide)⟩

/-- C2: with a role attached, the general role-check forwards exactly when
the role equals the required role or is super-admin and otherwise rejects
with 403, and the admin-or-super-admin variant forwards exactly when the
role is admin or super-admin and otherwise rejects with 403 — so an
unrecognized role string is rejected with 403 by both. -/
theorem roleMiddleware_forwards_iff (requiredRole role : UserRole) :
    (RoleMiddleware requiredRole (some role) = .forwarded ↔
      (role = requiredRole ∨ role = RoleSuperAdmin)) ∧
    (¬ (role = requiredRole ∨ role = RoleSuperAdmin) →
      RoleMiddleware requiredRole (some role) =
        .rejected 403 "Insufficient permissions"
          "Access denied: insufficient role permissions") ∧
    (AdminOrSuperAdminMiddleware (some role) = .forwarded ↔
      (role = RoleAdmin ∨ role = RoleSuperAdmin)) ∧
    (¬ (role = RoleAdmin ∨ role = RoleSuperAdmin) →
      AdminOrSuperAdminMiddleware (some role) =
        .rejected 403 "Insufficient permissions"
          "Access denied: admin or super-admin role required") := by
  refine ⟨?_, ?_, ?_, ?_⟩
  · by_cases h : role = requiredRole ∨ role = RoleSuperAdmin
    · have hcond : ¬ (role ≠ requiredRole ∧ role ≠ RoleSuperAdmin) := by tauto
      simp [RoleMiddleware, hcond, h]
    · have hcond : role ≠ requiredRole ∧ role ≠ RoleSuperAdmin := by tauto
      simp [RoleMiddleware, hcond]
  · intro h
    have hcond : role ≠ requiredRole ∧ role ≠ RoleSuperAdmin := by tauto
    simp [RoleMiddleware, hcond]
  · by_cases h : role = RoleAdmin ∨ role = RoleSuperAdmin
    · have hcond : ¬ (role ≠ RoleAdmin ∧ role ≠ RoleSuperAdmin) := by tauto
      simp [AdminOrSuperAdminMiddleware, hcond, h]
    · have hcond : role ≠ RoleAdmin ∧ role ≠ RoleSuperAdmin := by tauto
      simp [AdminOrSuperAdminMiddleware, hcond]
  · intro h
    have hcond : role ≠ RoleAdmin ∧ role ≠ RoleSuperAdmin := by tauto
    simp [AdminOrSuperAdminMiddleware, hcond]

/-- Concrete instantiation of `roleMiddleware_forwards_iff`: required role
admin, attached role the unrecognized string "editor" — both middlewares
reject with 403. -/
theorem roleMiddleware_forwards_iff_witness :
    (RoleMiddleware RoleAdmin (some "editor") = .forwarded ↔
      ("editor" = RoleAdmin ∨ "editor" = RoleSuperAdmin)) ∧
    RoleMiddleware RoleAdmin (some "editor") =
      .rejected 403 "Insufficient permissions"
        "Access denied: insufficient role permissions" ∧
    AdminOrSuperAdminMiddleware (some "editor") =
      .rejected 403 "Insufficient permissions"
        "Access denied: admin or super-admin role required" := by
  obtain ⟨h1, h2, h3, h4⟩ := roleMiddleware_forwards_iff RoleAdmin "editor"
  exact ⟨h1, h2 (by decide), h4 (by decide)⟩

/-- C3: the authentication middleware rejects with 401 when the header is
absent (missing-auth), rejects with 401 when the header does not carry the
Bearer scheme (bad-format), rejects with 401 when the token fails Token
Service validation (invalid-or-expired), and otherwise forwards with the
decoded user id, email, role and username attached to the context. -/
theorem authMiddleware_stages (validateToken : String → Except String JwtClaims)
    (authHeader : String) :
    (authHeader = "" →
      AuthMiddleware validateToken authHeader =
        .rejected 401 "Authorization header missing" "Bearer token is required") ∧
    (authHeader ≠ "" → authHeader.toList.take 7 ≠ "Bearer ".toList →
      AuthMiddleware validateToken authHeader =
        .rejected 401 "Invalid authorization format"
          "Authorization header must be 'Bearer <token>'") ∧
    (∀ e, authHeader.toList.take 7 = "Bearer ".toList →
      validateToken (String.mk (authHeader.toList.drop 7)) = .error e →
      AuthMiddleware validateToken authHeader =
        .rejected 401 "Invalid token" "Token is expired or invalid") ∧
    (∀ claims, authHeader.toList.take 7 = "Bearer ".toList →
      validateToken (String.mk (authHeader.toList.drop 7)) = .ok claims →
      AuthMiddleware validateToken authHeader =
        .forwarded claims.userID claims.email claims.role claims.username) := by
  have hne : authHeader.toList.take 7 = "Bearer ".toList → authHeader ≠ "" := by
    intro h he
    rw [he] at h
    exact absurd h (by decide)
  refine ⟨?_, ?_, ?_, ?_⟩
  · intro h
    unfold AuthMiddleware
    rw [if_pos h]
  · intro h1 h2
    unfold AuthMiddleware
    rw [if_neg h1, if_pos h2]
  · intro e hscheme hval
    unfold AuthMiddleware
    rw [if_neg (hne hscheme), if_neg (not_not_intro hscheme), hval]
  · intro claims hscheme hval
    unfold AuthMiddleware
    rw [if_neg (hne hscheme), if_neg (not_not_intro hscheme), hval]

/-- Concrete instantiation of `authMiddleware_stages` with a validator that
accepts exactly the token string "tok-1": a missing header, a Basic-scheme
header, a bad token and a good token each land in the stated stage. -/
theorem authMiddleware_stages_witness :
    (AuthMiddleware sampleValidator "" =
      .rejected 401 "Authorization header missing" "Bearer token is required") ∧
    (AuthMiddleware sampleValidator "Basic dXNlcjpwdw==" =
      .rejected 401 "Invalid authorization format"
        "Authorization header must be 'Bearer <token>'") ∧
    (AuthMiddleware sampleValidator "Bearer bad-token" =
      .rejected 401 "Invalid token" "Token is expired or invalid") ∧
    (AuthMiddleware sampleValidator "Bearer tok-1" =
      .forwarded sampleClaims.userID sampleClaims.email sampleClaims.role
        sampleClaims.username) := by
  obtain ⟨h1, h2, h3, h4⟩ := authMiddleware_stages sampleValidator ""
  obtain ⟨g1, g2, g3, g4⟩ := authMiddleware_stages sampleValidator "Basic dXNlcjpwdw=="
  obtain ⟨k1, k2, k3, k4⟩ := authMiddleware_stages sampleValidator "Bearer bad-token"
  obtain ⟨l1, l2, l3, l4⟩ := authMiddleware_stages sampleValidator "Bearer tok-1"
  refine ⟨h1 rfl, g2 (by decide) (by decide), ?_, ?_⟩
  · exact k3 "token is malformed" (by decide) rfl
  · exact l4 sampleClaims (by decide) rfl

/-! ## Username derivation lemmas -/

/-- Evaluation of `Char.ofNatAux` back to its code point. -/
theorem toNat_ofNatAux (n : Nat) (h : Nat.isValidChar n) :
    (Char.ofNatAux n h).toNat = n := rfl

/-- The first part of a Go split is the longest separator-free leading run. -/
theorem goSplitChar_head (sep : Char) (l : List Char) :
    ∃ parts, goSplitChar sep l = (l.takeWhile (fun c => c != sep)) :: parts := by
  induction l with
  | nil => exact ⟨[], rfl⟩
  | cons c rest ih =>
    by_cases h : c = sep
    · subst h
      refine ⟨goSplitChar c rest, ?_⟩
      simp [goSplitChar, List.takeWhile_cons]
    · obtain ⟨parts, hp⟩ := ih
      refine ⟨parts, ?_⟩
      simp [goSplitChar, h, hp, List.takeWhile_cons]

/-- For a non-empty email the embedding agrees with the specification's
wording of the derivation. -/
theorem generateUsername_eq_spec (u : User) (h : u.email ≠ "") :
    u.GenerateUsernameFromEmail = specUsernameOfEmail u.email := by
  unfold User.GenerateUsernameFromEmail specUsernameOfEmail
  rw [if_neg h]
  obtain ⟨parts, hp⟩ := goSplitChar_head '@' u.email.toList
  rw [hp]

/-- The username filter composed with lower-casing lands in the lower-case
username character class. -/
theorem isLowerUsernameChar_goToLowerChar (c : Char)
    (h : isUsernameChar c = true) :
    isLowerUsernameChar (goToLowerChar c) = true := by
  unfold isUsernameChar at h
  simp only [Bool.or_eq_true, Bool.and_eq_true, decide_eq_true_eq] at h
  unfold goToLowerChar
  by_cases hu : 65 ≤ c.toNat ∧ c.toNat ≤ 90
  · rw [dif_pos hu]
    unfold isLowerUsernameChar
    simp only [toNat_ofNatAux, Bool.or_eq_true, Bool.and_eq_true,
      decide_eq_true_eq]
    omega
  · rw [dif_neg hu]
    unfold isLowerUsernameChar
    simp only [Bool.or_eq_true, Bool.and_eq_true, decide_eq_true_eq]
    omega

/-- C4 counterexample: the empty email derives the empty string, not the
literal "user". -/
theorem generateUsername_empty_email_ne_user :
    User.GenerateUsernameFromEmail { adminUser with email := "" } ≠ "user" := by
  decide

/-- C4 (amended): username derivation takes the substring before the first
at-sign, removes every character that is not an ASCII letter, digit or
underscore, lower-cases, appends "user" when shorter than 3, truncates to
30 when longer than 30; "ab@x.com" derives "abuser" and
"John.Doe123@x.com" derives "johndoe123"; a non-empty email with no usable
characters derives "user", while the empty email derives the empty string
(rejected later by user creation), not "user". -/
theorem generateUsername_algorithm (u : User) :
    (u.email = "" → u.GenerateUsernameFromEmail = "") ∧
    (u.email ≠ "" → u.GenerateUsernameFromEmail = specUsernameOfEmail u.email) ∧
    (u.email ≠ "" →
      ((u.email.toList.takeWhile (fun c => c != '@')).filter isUsernameChar) = [] →
      u.GenerateUsernameFromEmail = "user") ∧
    User.GenerateUsernameFromEmail { u with email := "ab@x.com" } = "abuser" ∧
    User.GenerateUsernameFromEmail { u with email := "John.Doe123@x.com" } =
      "johndoe123" := by
  refine ⟨?_, generateUsername_eq_spec u, ?_, rfl, rfl⟩
  · intro h
    unfold User.GenerateUsernameFromEmail
    rw [if_pos h]
  · intro h hclean
    rw [generateUsername_eq_spec u h]
    have hclean' :
        List.filter isUsernameChar
          (List.takeWhile (fun c => c != '@') u.email.data) = [] := hclean
    simp [specUsernameOfEmail, hclean']

/-- Concrete instantiation of `generateUsername_algorithm` at the sample
admin user (email "admin@rgp.com"). -/
theorem generateUsername_algorithm_witness :
    (adminUser.email ≠ "" →
      adminUser.GenerateUsernameFromEmail = specUsernameOfEmail adminUser.email) ∧
    User.GenerateUsernameFromEmail { adminUser with email := "ab@x.com" } =
      "abuser" :=
  ⟨(generateUsername_algorithm adminUser).2.1,
   (generateUsername_algorithm adminUser).2.2.2.1⟩

/-- Bounds and character class of the pad-and-truncate stage of the
username pipeline, over any already-cleaned character list. -/
theorem padTruncate_bounds (cleaned padded final : List Char)
    (hmem : ∀ c ∈ cleaned, isLowerUsernameChar c = true)
    (hpad : padded = if cleaned.length < 3 then cleaned ++ "user".toList else cleaned)
    (hfin : final = if padded.length > 30 then padded.take 30 else padded) :
    3 ≤ final.length ∧ final.length ≤ 30 ∧
      ∀ c ∈ final, isLowerUsernameChar c = true := by
  have hpadmem : ∀ c ∈ padded, isLowerUsernameChar c = true := by
    rw [hpad]
    split
    · intro c hc
      rcases List.mem_append.mp hc with hc | hc
      · exact hmem c hc
      · fin_cases hc <;> decide
    · exact hmem
  have hpadlen : 3 ≤ padded.length := by
    rw [hpad]
    split
    · simp only [List.length_append]
      have : ("user".toList).length = 4 := by decide
      omega
    · omega
  rw [hfin]
  split
  · refine ⟨?_, ?_, ?_⟩
    · rw [List.length_take]
      omega
    · rw [List.length_take]
      omega
    · exact fun c hc => hpadmem c (List.take_subset 30 padded hc)
  · exact ⟨hpadlen, by omega, hpadmem⟩

/-- Bounds and character class of the username pipeline, for any email. -/
theorem specUsername_bounds (email : String) :
    3 ≤ (specUsernameOfEmail email).length ∧
    (specUsernameOfEmail email).length ≤ 30 ∧
    ∀ c ∈ (specUsernameOfEmail email).toList, isLowerUsernameChar c = true := by
  have hmem : ∀ c ∈ (List.map goToLowerChar
      (List.filter isUsernameChar
        (List.takeWhile (fun c => c != '@') email.data))),
      isLowerUsernameChar c = true := by
    intro c hc
    rw [List.mem_map] at hc
    obtain ⟨a, ha, rfl⟩ := hc
    exact isLowerUsernameChar_goToLowerChar a (List.mem_filter.mp ha).2
  exact padTruncate_bounds _ _ _ hmem rfl rfl

/-- C10: for every non-empty email the derived username is non-empty, has
between 3 and 30 characters inclusive, and consists only of lower-case
ASCII letters, digits and underscores. -/
theorem generateUsername_invariant (u : User) (h : u.email ≠ "") :
    u.GenerateUsernameFromEmail ≠ "" ∧
    3 ≤ u.GenerateUsernameFromEmail.length ∧
    u.GenerateUsernameFromEmail.length ≤ 30 ∧
    ∀ c ∈ u.GenerateUsernameFromEmail.toList, isLowerUsernameChar c = true := by
  rw [generateUsername_eq_spec u h]
  obtain ⟨h1, h2, h3⟩ := specUsername_bounds u.email
  refine ⟨?_, h1, h2, h3⟩
  intro he
  rw [he] at h1
  exact absurd h1 (by decide)

/-- Concrete instantiation of `generateUsername_invariant` at the sample
admin user (email "admin@rgp.com", derived username "admin"). -/
theorem generateUsername_invariant_witness :
    adminUser.GenerateUsernameFromEmail ≠ "" ∧
    3 ≤ adminUser.GenerateUsernameFromEmail.length ∧
    adminUser.GenerateUsernameFromEmail.length ≤ 30 ∧
    ∀ c ∈ adminUser.GenerateUsernameFromEmail.toList,
      isLowerUsernameChar c = true :=
  generateUsername_invariant adminUser (by decide)

/-! ## Password hashing results -/

/-- C9 counterexample: hashing a user whose password is the empty string
succeeds; `HashPassword` returns no error for empty plaintext. -/
theorem hashPassword_empty_succeeds :
    User.HashPassword { adminUser with password := "" } =
      .ok { adminUser with password := "$2a$10$" } := by
  rfl

/-- C9 (amended): password hashing performs no emptiness validation — it
succeeds on any password of at most 72 bytes, the empty string included,
and fails exactly when the bcrypt primitive errors on an over-long
password; password verification on a plaintext whose bcrypt key differs
from the hashed one returns false rather than raising an error. -/
theorem hashPassword_contract (u u' : User) (candidate : String) :
    (u.password.utf8ByteSize ≤ 72 → ∃ v, u.HashPassword = .ok v) ∧
    (72 < u.password.utf8ByteSize →
      u.HashPassword = .error "bcrypt: password length exceeds 72 bytes") ∧
    (u.HashPassword = .ok u' → bcryptKey candidate ≠ bcryptKey u.password →
      u'.CheckPassword candidate = false) := by
  refine ⟨?_, ?_, ?_⟩
  · intro h
    unfold User.HashPassword bcryptGenerateFromPassword
    rw [if_neg (by omega)]
    exact ⟨_, rfl⟩
  · intro h
    unfold User.HashPassword bcryptGenerateFromPassword
    rw [if_pos h]
  · intro hok hne
    unfold User.HashPassword bcryptGenerateFromPassword at hok
    by_cases hlong : 72 < u.password.utf8ByteSize
    · rw [if_pos hlong] at hok
      exact absurd hok (by simp)
    · rw [if_neg hlong] at hok
      simp only [Except.ok.injEq] at hok
      unfold User.CheckPassword bcryptCompareHashAndPassword
      rw [← hok]
      simp only [decide_eq_false_iff_not]
      intro heq
      apply hne
      have hdata := congrArg String.data heq
      have hsplit : "$2a$10$".data ++ bcryptKey u.password =
          "$2a$10$".data ++ bcryptKey candidate := hdata
      exact (List.append_cancel_left hsplit).symm

/-- Concrete instantiation of `hashPassword_contract`: the sample admin
password hashes successfully and a wrong candidate verifies to false. -/
theorem hashPassword_contract_witness :
    (∃ v, adminUser.HashPassword = .ok v) ∧
    hashedAdminUser.CheckPassword "wrong-pass" = false := by
  obtain ⟨h1, _, h3⟩ := hashPassword_contract adminUser hashedAdminUser "wrong-pass"
  exact ⟨h1 (by decide), h3 rfl (by decide)⟩

/-! ## Sign-in path results -/

/-- C8: on the sign-in path (with a well-formed request), an email matching
no user yields a 401 response with message "Email not found", while an
existing active user with a non-matching password yields a 401 response
with the distinct message "Wrong password" — the two failure causes are
distinguishable. -/
theorem signIn_distinguishes_failures (lookup : String → Option User)
    (now : Int) (nowStr email password : String)
    (hemail : email ≠ "") (hpw : password ≠ "")
    (hat : email.toList.contains '@' = true)
    (hdot : email.toList.contains '.' = true) :
    (lookup email = none →
      SignInController lookup now nowStr email password =
        .failure 401 (CreateErrorResponse nowStr 401 "Email not found"
          "No user exists with this email address")) ∧
    (∀ u, lookup email = some u → u.isActive = true →
      u.CheckPassword password = false →
      SignInController lookup now nowStr email password =
        .failure 401 (CreateErrorResponse nowStr 401 "Wrong password"
          "The password you entered is incorrect")) ∧
    CreateErrorResponse nowStr 401 "Email not found"
        "No user exists with this email address" ≠
      CreateErrorResponse nowStr 401 "Wrong password"
        "The password you entered is incorrect" := by
  have hguard1 : ¬ (email = "" ∨ password = "") := by
    intro h
    rcases h with h | h
    · exact hemail h
    · exact hpw h
  have hat' : '@' ∈ email.data := by
    simpa using hat
  have hdot' : '.' ∈ email.data := by
    simpa using hdot
  have hguard2 : ¬ ¬ (email.toList.contains '@' ∧ email.toList.contains '.') := by
    simp [hat', hdot']
  refine ⟨?_, ?_, ?_⟩
  · intro hnone
    unfold SignInController
    rw [if_neg hguard1, if_neg hguard2]
    simp [SignInUser, AuthenticateUser, hnone, ErrUserNotFound]
  · intro u hu hact hpwfail
    unfold SignInController
    rw [if_neg hguard1, if_neg hguard2]
    simp [SignInUser, AuthenticateUser, hu, hact, hpwfail, ErrInvalidPassword,
      ErrUserNotFound]
  · intro heq
    have := congrArg ErrorResponse.message heq
    simp [CreateErrorResponse] at this

/-- Concrete instantiation of `signIn_distinguishes_failures` on the sample
store: an unknown email gets "Email not found", the known admin email with
a wrong password gets "Wrong password". -/
theorem signIn_distinguishes_failures_witness :
    (SignInController sampleLookup 1000 "2026-01-01T00:00:00Z"
        "ghost@rgp.com" "whatever-pass" =
      .failure 401 (CreateErrorResponse "2026-01-01T00:00:00Z" 401
        "Email not found" "No user exists with this email address")) ∧
    (SignInController sampleLookup 1000 "2026-01-01T00:00:00Z"
        "admin@rgp.com" "wrong-pass" =
      .failure 401 (CreateErrorResponse "2026-01-01T00:00:00Z" 401
        "Wrong password" "The password you entered is incorrect")) := by
  obtain ⟨h1, _, _⟩ := signIn_distinguishes_failures sampleLookup 1000
    "2026-01-01T00:00:00Z" "ghost@rgp.com" "whatever-pass"
    (by decide) (by decide) (by decide) (by decide)
  obtain ⟨_, g2, _⟩ := signIn_distinguishes_failures sampleLookup 1000
    "2026-01-01T00:00:00Z" "admin@rgp.com" "wrong-pass"
    (by decide) (by decide) (by decide) (by decide)
  exact ⟨h1 rfl, g2 hashedAdminUser rfl rfl (by decide)⟩

/-! ## Enquiry query layer results -/

/-- C6: the effective page is 1 when the parameter is absent, unparseable
or non-positive and the parsed value otherwise; the effective limit is 10
in the same default cases, the parsed value capped at 100 otherwise, and
always lies in [1, 100]. -/
theorem enquiryQueryParams (pageStr limitStr : String) :
    (pageStr = "" → parsePageParam pageStr = 1) ∧
    (parseInt64 pageStr = none → parsePageParam pageStr = 1) ∧
    (∀ v, parseInt64 pageStr = some v → v ≤ 0 → parsePageParam pageStr = 1) ∧
    (∀ v, parseInt64 pageStr = some v → 0 < v → parsePageParam pageStr = v) ∧
    (limitStr = "" → parseLimitParam limitStr = 10) ∧
    (parseInt64 limitStr = none → parseLimitParam limitStr = 10) ∧
    (∀ v, parseInt64 limitStr = some v → v ≤ 0 → parseLimitParam limitStr = 10) ∧
    (∀ v, parseInt64 limitStr = some v → 0 < v →
      parseLimitParam limitStr = min v 100) ∧
    1 ≤ parseLimitParam limitStr ∧ parseLimitParam limitStr ≤ 100 := by
  have hempty : parseInt64 "" = none := by decide
  refine ⟨?_, ?_, ?_, ?_, ?_, ?_, ?_, ?_, ?_⟩
  · intro h
    simp [parsePageParam, h]
  · intro h
    unfold parsePageParam
    split
    · rw [h]
    · rfl
  · intro v hv hle
    unfold parsePageParam
    split
    · rw [hv]
      simp only []
      rw [if_neg (by omega)]
    · rfl
  · intro v hv hpos
    by_cases he : pageStr = ""
    · rw [he] at hv
      exact absurd hv (by simp [hempty])
    · unfold parsePageParam
      rw [if_pos he, hv]
      simp only []
      rw [if_pos (by omega)]
  · intro h
    simp [parseLimitParam, h]
  · intro h
    unfold parseLimitParam
    split
    · rw [h]
    · rfl
  · intro v hv hle
    unfold parseLimitParam
    split
    · rw [hv]
      simp only []
      rw [if_neg (by omega)]
    · rfl
  · intro v hv hpos
    by_cases he : limitStr = ""
    · rw [he] at hv
      exact absurd hv (by simp [hempty])
    · unfold parseLimitParam
      rw [if_pos he, hv]
      simp only []
      rw [if_pos (by omega)]
      split <;> omega
  · unfold parseLimitParam
    split
    · cases hv : parseInt64 limitStr with
      | none => simp
      | some v =>
        simp only []
        split
        · split <;> omega
        · omega
    · omega

/-- Concrete instantiation of `enquiryQueryParams`: page "3" parses to 3,
an unparseable page defaults to 1, limit "250" is capped at 100, and the
limit bounds hold for an absent parameter. -/
theorem enquiryQueryParams_witness :
    parsePageParam "3" = 3 ∧
    parsePageParam "abc" = 1 ∧
    parseLimitParam "250" = min 250 100 ∧
    (1 ≤ parseLimitParam "" ∧ parseLimitParam "" ≤ 100) := by
  obtain ⟨_, p2, _, p4, _, _, _, _, _⟩ := enquiryQueryParams "3" ""
  obtain ⟨_, q2, _, _, _, _, _, _, _⟩ := enquiryQueryParams "abc" ""
  obtain ⟨_, _, _, _, _, _, _, l8, _⟩ := enquiryQueryParams "" "250"
  obtain ⟨_, _, _, _, _, _, _, _, lb⟩ := enquiryQueryParams "" ""
  exact ⟨p4 3 (by decide) (by decide), q2 (by decide),
    l8 250 (by decide) (by decide), lb⟩

/-- C5: for page ≥ 1, limit ≥ 1 and any total count, the service computes
skip = (page-1)·limit; totalPages is the ceiling of totalCount/limit (the
least n with totalCount ≤ n·limit); hasNext holds iff page < totalPages;
hasPrevious holds iff page > 1; nextPage and previousPage are page+1 and
page-1 unconditionally. -/
theorem pagination_math (page limit totalCount : Nat)
    (hpage : 1 ≤ page) (hlimit : 1 ≤ limit) :
    (enquiryPagination page limit totalCount).1 = (page - 1) * limit ∧
    totalCount ≤ (enquiryPagination page limit totalCount).2.totalPages * limit ∧
    (∀ n, totalCount ≤ n * limit →
      (enquiryPagination page limit totalCount).2.totalPages ≤ n) ∧
    ((enquiryPagination page limit totalCount).2.hasNext = true ↔
      page < (enquiryPagination page limit totalCount).2.totalPages) ∧
    ((enquiryPagination page limit totalCount).2.hasPrevious = true ↔ 1 < page) ∧
    (enquiryPagination page limit totalCount).2.nextPage = page + 1 ∧
    (enquiryPagination page limit totalCount).2.previousPage = page - 1 := by
  have hgc := gc_smul_ceilDiv (α := ℕ) (β := ℕ) (show 0 < limit by omega)
  have hmain : ∀ n, totalCount ⌈/⌉ limit ≤ n ↔ totalCount ≤ limit * n := by
    intro n
    simpa [smul_eq_mul] using hgc totalCount n
  refine ⟨rfl, ?_, ?_, ?_, ?_, rfl, rfl⟩
  · show totalCount ≤ (totalCount + limit - 1) / limit * limit
    have hle : totalCount ⌈/⌉ limit ≤ (totalCount + limit - 1) / limit :=
      le_of_eq (Nat.ceilDiv_eq_add_pred_div _ _)
    have h := (hmain _).mp hle
    rw [Nat.mul_comm] at h
    exact h
  · intro n hn
    show (totalCount + limit - 1) / limit ≤ n
    rw [Nat.mul_comm] at hn
    have h : totalCount ⌈/⌉ limit ≤ n := (hmain n).mpr hn
    rw [Nat.ceilDiv_eq_add_pred_div] at h
    exact h
  · simp [enquiryPagination]
  · simp [enquiryPagination]

/-- Concrete instantiation of `pagination_math` at the spec's example:
total 25, limit 10 give 3 pages; page 3 has no next but a previous page,
and nextPage is still 4. -/
theorem pagination_math_witness :
    (enquiryPagination 3 10 25).2.totalPages = 3 ∧
    (enquiryPagination 3 10 25).2.hasNext = false ∧
    (enquiryPagination 3 10 25).2.hasPrevious = true ∧
    (enquiryPagination 3 10 25).2.nextPage = 4 ∧
    (enquiryPagination 3 10 25).1 = 20 ∧
    25 ≤ (enquiryPagination 3 10 25).2.totalPages * 10 := by
  obtain ⟨hskip, hub, hmin, hnext, hprev, hnp, hpp⟩ :=
    pagination_math 3 10 25 (by decide) (by decide)
  exact ⟨by decide, by decide, by decide, by decide, by decide, hub⟩

/-- C7: a date string that parses as YYYY-MM-DD turns into an inclusive
created-at range from 00:00:00 to 23:59:59.999999999 UTC of that day — an
instant with a valid nanosecond-of-day satisfies it exactly when it lies
on that calendar day; a date string that fails to parse adds no date
constraint, leaves the rest of the filter intact, and the service still
produces its plan (no error path exists). -/
theorem dateFilter_semantics (enquiryType date : String) :
    (∀ y m d, parseGoDate date = some (y, m, d) →
      (buildEnquiryFilter enquiryType date).createdAtRange =
        some (startOfDay y m d, endOfDay y m d) ∧
      (startOfDay y m d).nanoOfDay = 0 ∧
      (endOfDay y m d).nanoOfDay = 86400000000000 - 1 ∧
      ∀ t : GoTime, t.nanoOfDay < 86400000000000 →
        (matchesCreatedAt (buildEnquiryFilter enquiryType date) t = true ↔
          (t.year = y ∧ t.month = m ∧ t.day = d))) ∧
    (parseGoDate date = none →
      (buildEnquiryFilter enquiryType date).createdAtRange = none ∧
      (∀ t : GoTime, matchesCreatedAt (buildEnquiryFilter enquiryType date) t = true) ∧
      (buildEnquiryFilter enquiryType date).enquiryType =
        (buildEnquiryFilter enquiryType "").enquiryType ∧
      ∀ page limit totalCount,
        (GetAllEnquiries page limit totalCount enquiryType date).pagination =
          (enquiryPagination page limit totalCount).2) := by
  constructor
  · intro y m d hparse
    have hne : date ≠ "" := by
      intro he
      rw [he] at hparse
      rw [show parseGoDate "" = none from rfl] at hparse
      exact Option.noConfusion hparse
    have hrange : (buildEnquiryFilter enquiryType date).createdAtRange =
        some (startOfDay y m d, endOfDay y m d) := by
      simp [buildEnquiryFilter, hne, hparse]
    refine ⟨hrange, rfl, rfl, ?_⟩
    intro t ht
    unfold matchesCreatedAt
    rw [hrange]
    simp only [startOfDay, endOfDay, GoTime.le, Bool.and_eq_true,
      Bool.or_eq_true, decide_eq_true_eq]
    omega
  · intro hparse
    have hrange : (buildEnquiryFilter enquiryType date).createdAtRange = none := by
      simp [buildEnquiryFilter, hparse]
    refine ⟨hrange, ?_, rfl, fun page limit totalCount => rfl⟩
    intro t
    unfold matchesCreatedAt
    rw [hrange]

/-- Concrete instantiation of `dateFilter_semantics`: "2024-07-15" yields
the day range for 15 July 2024 and noon of that day satisfies it, while
the invalid "2024-13-40" yields no date constraint and every instant
passes. -/
theorem dateFilter_semantics_witness :
    (buildEnquiryFilter "" "2024-07-15").createdAtRange =
      some (startOfDay 2024 7 15, endOfDay 2024 7 15) ∧
    (matchesCreatedAt (buildEnquiryFilter "" "2024-07-15")
      { year := 2024, month := 7, day := 15, nanoOfDay := 43200000000000 } =
        true ↔ (2024 = 2024 ∧ 7 = 7 ∧ 15 = 15)) ∧
    (buildEnquiryFilter "general" "2024-13-40").createdAtRange = none ∧
    matchesCreatedAt (buildEnquiryFilter "general" "2024-13-40")
      { year := 2030, month := 1, day := 1, nanoOfDay := 5 } = true := by
  obtain ⟨h1, _⟩ := dateFilter_semantics "" "2024-07-15"
  obtain ⟨_, h2⟩ := dateFilter_semantics "general" "2024-13-40"
  obtain ⟨hr, _, _, hiff⟩ := h1 2024 7 15 (by decide)
  obtain ⟨hr2, hall, _, _⟩ := h2 (by decide)
  exact ⟨hr, hiff _ (by decide), hr2, hall _⟩

end RGPEnquiry
